import Mathlib

/-!
Shallow embedding of the watchtower cache-to-store import engine and
full-text query layer (src/watchtower.py, src/web/web.py).

The repository's store is an SQLite database; the embedding models it as a
named collection of tables whose rows are flat key/value records.  The
SQLite full-text MATCH predicate is kept abstract (a Boolean predicate
parameter over match string and row); every other step of the import and
search pipelines is translated from the Python source.
-/

namespace Watchtower

/-- JSON-like values as produced by parsing a cache file (`json.load`).
Python's `None`, `bool`, numbers, `str`, `list` and `dict` shapes. -/
inductive Jv where
  | null
  | bool (b : Bool)
  | num (n : Int)
  | str (s : String)
  | arr (xs : List Jv)
  | obj (fields : List (String × Jv))
deriving Repr

/-- A database row / Python dict with string keys, insertion ordered. -/
abbrev Row := List (String × Jv)

/-- Python truthiness of a parsed value. -/
def Jv.truthy : Jv → Bool
  | .null => false
  | .bool b => b
  | .num n => n != 0
  | .str s => s != ""
  | .arr xs => !xs.isEmpty
  | .obj fs => !fs.isEmpty

/-- `type(v) is dict`. -/
def Jv.isObj : Jv → Bool
  | .obj _ => true
  | _ => false

/-- `type(v) is list`. -/
def Jv.isArr : Jv → Bool
  | .arr _ => true
  | _ => false

/-- `type(v) is str`. -/
def Jv.isStr : Jv → Bool
  | .str _ => true
  | _ => false

/-- First value stored under key `k`, or Python `None` when absent
(`dict.get(k)` on a dict). -/
def rowGet (r : Row) (k : String) : Jv :=
  match r.lookup k with
  | some v => v
  | none => .null

/-- `k in dict` / whether the row stores the key at all. -/
def rowHas (r : Row) (k : String) : Bool :=
  (r.lookup k).isSome

/-- `dict.update({k: v})`: overwrite in place when the key exists, append
otherwise. -/
def rowSet : Row → String → Jv → Row
  | [], k, v => [(k, v)]
  | (m, w) :: rest, k, v =>
      if m = k then (m, v) :: rest else (m, w) :: rowSet rest k v

/-- Fields of an object value, `[]` for every other shape. -/
def jvFields : Jv → List (String × Jv)
  | .obj fs => fs
  | _ => []

/-- Items of an array value, `[]` for every other shape. -/
def jvItems : Jv → List Jv
  | .arr xs => xs
  | _ => []

/-- `v.get(k)` on a value known to be a dict (used after validation). -/
def jvGet (v : Jv) (k : String) : Jv :=
  rowGet (jvFields v) k

/-- Shallow Python `repr` of a parsed value, used only inside assertion
message text (nesting depth bounded by fuel). -/
def jvReprFuel : Nat → Jv → String
  | _, .null => "None"
  | _, .bool true => "True"
  | _, .bool false => "False"
  | _, .num n => toString n
  | _, .str s => "'" ++ s ++ "'"
  | 0, .arr _ => "[...]"
  | 0, .obj _ => "\x7b...\x7d"
  | fuel + 1, .arr xs =>
      "[" ++ String.intercalate ", " (xs.map (jvReprFuel fuel)) ++ "]"
  | fuel + 1, .obj fs =>
      "\x7b" ++
        String.intercalate ", "
          (fs.map (fun kv => "'" ++ kv.1 ++ "': " ++ jvReprFuel fuel kv.2)) ++
      "\x7d"

def jvRepr (v : Jv) : String := jvReprFuel 64 v

/-! ### The Response Validator (`Watchtower.validate_module_response`) -/

/-- How a check in the Python validator fails: a raised `AssertionError`
with its message (caught by the import loop), or an `AttributeError` from
calling `.get` on a non-dict (uncaught, crashes the operation). -/
inductive PyErr where
  | assertionFailed (msg : String)
  | attrError
deriving Repr, DecidableEq

/-- `assert cond, msg`. -/
def pyAssert (cond : Bool) (msg : String) : Except PyErr Unit :=
  if cond then .ok () else .error (.assertionFailed msg)

/-- `v.get(k)`: the stored value (or `None`) on a dict, an
`AttributeError` on any other shape. -/
def pyGet (v : Jv) (k : String) : Except PyErr Jv :=
  match v with
  | .obj fs => .ok (rowGet fs k)
  | _ => .error .attrError

/-- `s.endsWith suffix`, computed over the character lists. -/
def strEndsWith (s suffix : String) : Bool :=
  suffix.data.isSuffixOf s.data

/-- `re.match(Regex.FTS_TABLE, name)`: the name ends in one of the
reserved full-text shadow-table suffixes. -/
def isFtsTableName (s : String) : Bool :=
  strEndsWith s "_fts" || strEndsWith s "_fts_config" || strEndsWith s "_fts_data" ||
  strEndsWith s "_fts_docsize" || strEndsWith s "_fts_idx"

/-- The inner loop over `data.get('tables').get(table).get('rows')`. -/
def checkRows (t : String) : List Jv → Except PyErr Unit
  | [] => .ok ()
  | row :: rest => do
      pyAssert row.isObj
        s!"data.get('tables').get('{t}').get('rows') contains an item that is not a dict: {jvRepr row}"
      checkRows t rest

/-- One iteration of the validator's `for table in data.get('tables')`
loop, with the checks in the source's order: reserved name, shadow-table
name, `pk` (when present) a string, spec a dict, rows present, rows a
list, every row a dict. -/
def checkTable (tables : Jv) (t : String) : Except PyErr Unit := do
  pyAssert (t != "imports") "data.get('tables').get('imports') is not allowed."
  pyAssert (!isFtsTableName t)
    s!"data.get('tables').get('{t}') is not allowed because it conflicts with FTS tables."
  let spec ← pyGet tables t
  let pk ← pyGet spec "pk"
  if pk.truthy then
    pyAssert pk.isStr s!"data.get('tables').get('{t}').get('pk') is not a string."
  pyAssert spec.isObj s!"data.get('tables').get('{t}') is not a dict."
  let rows ← pyGet spec "rows"
  pyAssert rows.truthy
    s!"data.get('tables').get('{t}').get('rows') is empty or does not exist."
  pyAssert rows.isArr
    s!"data.get('tables').get('{t}').get('rows') is not a list."
  checkRows t (jvItems rows)

def checkTables (tables : Jv) : List String → Except PyErr Unit
  | [] => .ok ()
  | t :: rest => do
      checkTable tables t
      checkTables tables rest

/-- `Watchtower.validate_module_response(data)`: succeeds, or reports the
first failing assertion (or an uncaught `AttributeError` when a table
spec is not a dict shape). -/
def validate_module_response (data : Jv) : Except PyErr Unit := do
  pyAssert data.truthy "Response data is empty."
  pyAssert data.isObj "Response data is not a dict."
  let tables ← pyGet data "tables"
  pyAssert tables.truthy "data.get('tables') does not exist."
  pyAssert tables.isObj "data.get('tables') is not a dict."
  checkTables tables ((jvFields tables).map Prod.fst)

/-! ### Query normalization (`Db.normalize_fts_query`) -/

/-- Split at the next double quote: the characters before it and those
after it, `none` when no quote closes. -/
def splitAtQuote : List Char → Option (List Char × List Char)
  | [] => none
  | c :: rest =>
      if c = '"' then some ([], rest)
      else
        match splitAtQuote rest with
        | some (pre, post) => some (c :: pre, post)
        | none => none

/-- `re.findall('"[^"]*"', query)` followed by stripping the quote pairs:
the contents of each balanced pair of double quotes, left to right,
non-overlapping.  Fuel is one more than the string length. -/
def findQuotedFuel : Nat → List Char → List String
  | 0, _ => []
  | _, [] => []
  | fuel + 1, c :: rest =>
      if c = '"' then
        match splitAtQuote rest with
        | some (content, post) => String.mk content :: findQuotedFuel fuel post
        | none => []
      else findQuotedFuel fuel rest

/-- `query.replace(p, '')` for a non-empty pattern: delete every
occurrence, scanning left to right (identity when the pattern is empty,
as in Python for an empty replacement). -/
def removeOccFuel (p : List Char) : Nat → List Char → List Char
  | 0, s => s
  | _, [] => []
  | fuel + 1, c :: rest =>
      if p ≠ [] ∧ p.isPrefixOf (c :: rest) then
        removeOccFuel p fuel ((c :: rest).drop p.length)
      else c :: removeOccFuel p fuel rest

def removeOccurrences (s p : String) : String :=
  String.mk (removeOccFuel p.data (s.length + 1) s.data)

/-- `\w` of the Python pattern: letters, digits, underscore. -/
def isWordChar (c : Char) : Bool :=
  c.isAlpha || c.isDigit || c = '_'

def optWord : Option Char → Bool
  | some c => isWordChar c
  | none => false

/-- A `\b` word boundary inside `s` at end position `k ≥ 1`. -/
def endBoundary (s : List Char) (k : Nat) : Bool :=
  optWord (s.get? (k - 1)) != optWord (s.get? k)

/-- Greedy backtracking of `[^\s]*\b` from the maximal non-whitespace run
length down to the empty match: the largest end position with a word
boundary. -/
def bestEnd (s : List Char) : Nat → Nat
  | 0 => 0
  | j + 1 => if endBoundary s (j + 1) then j + 1 else bestEnd s j

/-- `re.findall('\b[^\s]*\b', s)` restricted to its non-empty matches
(Python also reports empty matches; the caller filters them out with
`filter(None, ...)`, so they are omitted here).  `p` is the character just
before the current position. -/
def scanWords : Nat → Option Char → List Char → List String
  | 0, _, _ => []
  | _, _, [] => []
  | fuel + 1, p, c :: rest =>
      if optWord p != optWord (some c) then
        let run := ((c :: rest).takeWhile (fun ch => !ch.isWhitespace)).length
        let j := bestEnd (c :: rest) run
        if j = 0 then scanWords fuel (some c) rest
        else
          String.mk ((c :: rest).take j) ::
            scanWords fuel ((c :: rest).get? (j - 1)) ((c :: rest).drop j)
      else scanWords fuel (some c) rest

/-- The per-keyword `.replace(...)` chain: delete double quotes,
apostrophes, spaces, newlines, carriage returns and commas. -/
def stripKeywordChars (s : String) : String :=
  String.mk (s.data.filter
    (fun c => c != '"' && c != '\'' && c != ' ' && c != '\n' && c != '\r' && c != ','))

/-- The exact phrases of a query: contents of its double-quoted
substrings. -/
def ftsPhrases (query : String) : List String :=
  findQuotedFuel (query.length + 1) query.data

/-- The query after every phrase's content has been deleted from it
(`query.replace(p, '')` for each phrase `p`; the quote characters
themselves stay behind). -/
def ftsRemainder (query : String) : String :=
  (ftsPhrases query).foldl removeOccurrences query

/-- The bare keywords of a query: the non-empty `\b[^\s]*\b` matches of
the phrase-stripped remainder, each with quote, apostrophe, whitespace
and comma characters deleted. -/
def ftsKeywords (query : String) : List String :=
  (((scanWords (ftsRemainder query).length.succ none (ftsRemainder query).data).filter
      (fun w => w != "")).map stripKeywordChars)

/-- `'" OR "'.join(parts)` wrapped in outer double quotes. -/
def mkFtsDisjunction (parts : List String) : String :=
  "\"" ++ String.intercalate "\" OR \"" parts ++ "\""

/-- `Db.normalize_fts_query(query)`: phrases and keywords joined into one
full-text disjunction, `none` when nothing remains (the Python
`if phrases.count or keywords.count` guard is always satisfied, a bound
method being truthy, so only the final emptiness test decides). -/
def normalize_fts_query (query : String) : Option String :=
  let parts := ftsPhrases query ++ ftsKeywords query
  let joined := String.intercalate "\" OR \"" parts
  if joined = "" then none else some ("\"" ++ joined ++ "\"")

/-! ### The store and the Schema/Table Store -/

/-- One table of the store: its declared single-column primary key (if
any), its column names in declaration order, and its rows. -/
structure Table where
  pk : Option String
  cols : List String
  rows : List Row
deriving Repr

/-- The durable store: named tables, creation ordered.  The full-text
shadow tables that SQLite keeps per domain table are not materialized
here; the MATCH predicate over them is abstracted in the search layer. -/
abbrev Store := List (String × Table)

def storeGet (s : Store) (n : String) : Option Table :=
  s.lookup n

def storeSet : Store → String → Table → Store
  | [], n, t => [(n, t)]
  | (m, u) :: rest, n, t =>
      if m = n then (m, t) :: rest else (m, u) :: storeSet rest n t

/-- `Db.table_exists`. -/
def table_exists (s : Store) (n : String) : Bool :=
  (storeGet s n).isSome

/-- `Db.get_table_count`: total number of rows. -/
def get_table_count (s : Store) (n : String) : Nat :=
  match storeGet s n with
  | some t => t.rows.length
  | none => 0

/-- `Db.column_exists`. -/
def column_exists (s : Store) (n c : String) : Bool :=
  match storeGet s n with
  | some t => t.cols.contains c
  | none => false

/-! ### The Import Engine (`Watchtower._import_file`, `_cache_import`) -/

/-- SQL value equality as a key comparison sees it: `NULL` compares equal
to nothing (including another `NULL`), booleans are stored as the
integers 0/1, numbers and text compare by value. -/
def sqlValEq : Jv → Jv → Bool
  | .bool a, .bool b => a == b
  | .bool a, .num n => (if a then (1 : Int) else 0) == n
  | .num n, .bool b => n == (if b then (1 : Int) else 0)
  | .num a, .num b => a == b
  | .str a, .str b => a == b
  | _, _ => false

/-- Union of the keys of a row into an accumulated column list, keeping
first-appearance order (`suggest_column_types` key collection, and
`alter=True` column growth). -/
def rowKeysUnion (acc : List String) (r : Row) : List String :=
  r.foldl (fun a kv => if a.contains kv.1 then a else a ++ [kv.1]) acc

/-- Columns inferred for a first batch of rows. -/
def suggestCols (rows : List Row) : List String :=
  rows.foldl rowKeysUnion []

/-- `table.create(suggest_column_types(rows), pk=pk)`: the inferred
columns, with the primary-key column added up front when the rows do not
carry it. -/
def createTable (rows : List Row) (pk : Option String) : Table :=
  let cols := suggestCols rows
  let cols :=
    match pk with
    | some k => if cols.contains k then cols else k :: cols
    | none => cols
  { pk := pk, cols := cols, rows := [] }

/-- Which rows the datastore rejects with a constraint (integrity)
violation when inserted into a named table.  The Python code delegates
this to SQLite (`sqlite3.IntegrityError`); the embedding keeps it as a
parameter. -/
abbrev Viol := String → Row → Bool

/-- One row of `table.insert_all(rows, pk=pk, alter=True, replace=True)`:
the row's unseen keys become new columns, and when the table declares a
primary key whose value collides with a stored row, that row is replaced;
otherwise the row is appended. -/
def upsertRow (t : Table) (r : Row) : Table :=
  let cols := rowKeysUnion t.cols r
  match t.pk with
  | some k =>
      match t.rows.findIdx? (fun old => sqlValEq (rowGet old k) (rowGet r k)) with
      | some i => { t with cols := cols, rows := t.rows.set i r }
      | none => { t with cols := cols, rows := t.rows ++ [r] }
  | none => { t with cols := cols, rows := t.rows ++ [r] }

/-- `insert_all` over a list of rows, stopping at the first row the
datastore rejects; the Boolean reports whether a constraint violation was
raised. -/
def insertRowsAcc (viol : Viol) (tname : String) (t : Table) :
    List Row → Table × Bool
  | [] => (t, false)
  | r :: rest =>
      if viol tname r then (t, true)
      else insertRowsAcc viol tname (upsertRow t r) rest

/-- One cache file as `_import_file` sees it: the module and file names,
the SHA-1 content hash of the raw bytes, the import timestamp, and the
parsed payload (`none` models a `json.JSONDecodeError`). -/
structure FileData where
  module : String
  file : String
  sha1 : String
  timestamp : String
  parsed : Option Jv

/-- Per-file outcome of `_import_file`, as logged by the source. -/
inductive FileOutcome where
  | readFailed
  | alreadyImported
  | imported
  | constraintViolation
deriving Repr, DecidableEq

/-- Columns of the reserved Import Record table, `id` the integer
primary key. -/
def importsColumns : List String :=
  ["id", "module", "file", "sha1", "timestamp"]

/-- The Import Record row inserted for a file, with the auto-assigned
integer id. -/
def mkImportRow (f : FileData) (id : Int) : Row :=
  [("id", .num id), ("module", .str f.module), ("file", .str f.file),
   ("sha1", .str f.sha1), ("timestamp", .str f.timestamp)]

/-- `len(list(imports_table.rows_where('sha1 = ?', [sha1])))`. -/
def importsRowsWithSha (s : Store) (h : String) : Nat :=
  match storeGet s "imports" with
  | some t => (t.rows.filter (fun r => sqlValEq (rowGet r "sha1") (.str h))).length
  | none => 0

/-- The `for table_name in data.get('tables')` loop of `_import_file`:
stamp every row with the new import id, create the domain table when
absent (with the file's declared primary key), upsert or append the rows,
and stop — keeping the mutations made so far — when the datastore raises
a constraint violation (the Boolean result). -/
def importTablesLoop (viol : Viol) (importId : Int) (s : Store) :
    List (String × Jv) → Store × Bool
  | [] => (s, false)
  | (name, spec) :: rest =>
      let rows := ((jvItems (jvGet spec "rows")).map jvFields).map
        (fun r => rowSet r "import_id" (.num importId))
      let pk : Option String :=
        match jvGet spec "pk" with
        | .str k => some k
        | _ => none
      let t :=
        match storeGet s name with
        | some t => t
        | none => createTable rows pk
      let inserted := insertRowsAcc viol name t rows
      let s2 := storeSet s name inserted.1
      if inserted.2 then (s2, true) else importTablesLoop viol importId s2 rest

/-- `Watchtower._import_file(db_conn, filepath, force)`.

A decode or validation failure is caught and skips the file; a duplicate
content hash without `force` skips the file; a constraint violation is
caught after the mutations made so far; a table spec of non-dict shape
raises an uncaught `AttributeError` inside the validator (`.error ()`),
killing the whole command. -/
def import_file (viol : Viol) (s : Store) (f : FileData) (force : Bool) :
    Except Unit (FileOutcome × Store) :=
  match f.parsed with
  | none => .ok (.readFailed, s)
  | some data =>
      match validate_module_response data with
      | .error (.assertionFailed _) => .ok (.readFailed, s)
      | .error .attrError => .error ()
      | .ok () =>
          let s1 :=
            match storeGet s "imports" with
            | some _ => s
            | none => storeSet s "imports"
                { pk := some "id", cols := importsColumns, rows := [] }
          if importsRowsWithSha s1 f.sha1 ≠ 0 ∧ force = false then
            .ok (.alreadyImported, s1)
          else
            let importId : Int :=
              (match storeGet s1 "imports" with
               | some t => (t.rows.length : Int)
               | none => 0) + 1
            let s2 :=
              match storeGet s1 "imports" with
              | some t => storeSet s1 "imports"
                  { t with rows := t.rows ++ [mkImportRow f importId] }
              | none => s1
            let looped := importTablesLoop viol importId s2
              (jvFields (jvGet data "tables"))
            .ok (if looped.2 then .constraintViolation else .imported, looped.1)

/-- `self.lock_timeout` as set in `Watchtower.__init__`. -/
def lock_timeout : Nat := 60

/-- Result of the whole `import` command: the write lock timed out
("busy, retry later"), an uncaught exception killed the command before
the staged copy was written back, or the batch completed with one outcome
per file. -/
inductive ImportReport where
  | busy
  | crashed
  | completed (outcomes : List FileOutcome)
deriving Repr, DecidableEq

/-- The per-file loop of `_cache_import`, run against the staged
in-memory copy of the store. -/
def importFilesLoop (viol : Viol) (force : Bool) (s : Store) :
    List FileData → Except Unit (List FileOutcome × Store)
  | [] => .ok ([], s)
  | f :: rest =>
      match import_file viol s f force with
      | .error () => .error ()
      | .ok (o, s2) =>
          match importFilesLoop viol force s2 rest with
          | .error () => .error ()
          | .ok (os, s3) => .ok (o :: os, s3)

/-- `Watchtower._cache_import`: back up the durable store to a private
copy, import every file against the copy under the write lock, then back
the copy up over the durable store.  `lockAcquired = false` models the
`filelock.Timeout` path.  Returns the report and the durable store after
the attempt. -/
def cache_import (viol : Viol) (durable : Store) (files : List FileData)
    (force : Bool) (lockAcquired : Bool) : ImportReport × Store :=
  if lockAcquired = false then (.busy, durable)
  else
    match importFilesLoop viol force durable files with
    | .error () => (.crashed, durable)
    | .ok (os, staged) => (.completed os, staged)

/-! ### The Search Engine (`Db.search_table`, web `global_search`) -/

/-- SQLite storage-class rank used by `ORDER BY`: `NULL`, then numbers
(booleans stored as integers), then text; parsed nested values (stored as
serialized text) are ranked after scalars and not ordered further. -/
def jvRank : Jv → Nat
  | .null => 0
  | .bool _ => 1
  | .num _ => 1
  | .str _ => 2
  | .arr _ => 3
  | .obj _ => 4

def jvAsInt : Jv → Int
  | .bool b => if b then 1 else 0
  | .num n => n
  | _ => 0

def jvAsStr : Jv → String
  | .str s => s
  | _ => ""

/-- Lexicographic comparison of character lists (SQLite's BINARY text
collation: UTF-8 byte order coincides with code-point order). -/
def charListLe : List Char → List Char → Bool
  | [], _ => true
  | _ :: _, [] => false
  | a :: as, b :: bs => if a = b then charListLe as bs else decide (a < b)

def strLe (a b : String) : Bool :=
  charListLe a.data b.data

/-- Total comparison of stored values, `ORDER BY ... ASC`. -/
def jvLe (a b : Jv) : Bool :=
  if jvRank a < jvRank b then true
  else if jvRank b < jvRank a then false
  else if jvRank a = 1 then decide (jvAsInt a ≤ jvAsInt b)
  else if jvRank a = 2 then strLe (jvAsStr a) (jvAsStr b)
  else true

/-- `SELECT c1,...,cn`: the row restricted to the selected columns, a
missing stored value reading as `NULL`. -/
def projectRow (cols : List String) (r : Row) : Row :=
  cols.map (fun c => (c, rowGet r c))

/-- The per-column existence asserts of `search_table`. -/
def checkColumns (t : Table) : List String → Except String Unit
  | [] => .ok ()
  | c :: rest =>
      if t.cols.contains c then checkColumns t rest
      else .error s!"Column {c} not found."

/-- `s.lower()`, computed over the character list. -/
def strLower (s : String) : String :=
  String.mk (s.data.map Char.toLower)

/-- `direction.lower() in ['desc', 'descending']`. -/
def sqlDirection (direction : String) : Bool :=
  strLower direction = "desc" || strLower direction = "descending"

/-- The full-text match expression handed to the store:
`'{' + ' '.join(columns) + '}: ' + query`. -/
def mkMatchExpr (selected : List String) (q : String) : String :=
  "\x7b" ++ String.intercalate " " selected ++ "\x7d: " ++ q

/-- The comparison the row query sorts with: the `order`-th selected
column (1-based), ascending or descending. -/
def rowLe (key : String) (desc : Bool) (a b : Row) : Prop :=
  (if desc then jvLe (rowGet b key) (rowGet a key)
   else jvLe (rowGet a key) (rowGet b key)) = true

instance (key : String) (desc : Bool) : DecidableRel (rowLe key desc) :=
  fun _ _ => instDecidableEqBool _ true

/-- `Db.search_table(table, columns, query, order, direction, limit,
offset)`.

`ftsMatch` abstracts the SQLite `MATCH` of a built match expression
against a row of the table's full-text shadow index.  Failures mirror the
source: a missing table or column raises an assertion, `OFFSET` without
`LIMIT` (limit 0, offset non-zero) is an SQL syntax error, and an order
index outside the selected columns is rejected by SQLite. -/
def search_table (ftsMatch : String → Row → Bool) (s : Store) (table : String)
    (columns : Option (List String)) (query : Option String) (order : Int)
    (direction : String) (limit : Int) (offset : Int) :
    Except String (Nat × Nat × List Row) :=
  (match storeGet s table with
   | some t => Except.ok t
   | none => Except.error s!"Table {table} not found.") >>= fun t =>
  (match columns with
   | some cs => checkColumns t cs
   | none => Except.ok ()) >>= fun _ =>
  let selected := match columns with | some cs => cs | none => t.cols
  let desc := sqlDirection direction
  let totalCount := t.rows.length
  let qnorm :=
    match query with
    | some q => if q = "" then none else normalize_fts_query q
    | none => none
  let matchExpr := qnorm.map (mkMatchExpr selected)
  let baseRows :=
    match matchExpr with
    | some m => t.rows.filter (ftsMatch m)
    | none => t.rows
  let filteredCount :=
    match matchExpr with
    | some _ => baseRows.length
    | none => totalCount
  if limit = 0 ∧ offset ≠ 0 then
    Except.error "near \"OFFSET\": syntax error"
  else if ¬ (1 ≤ order ∧ order ≤ (selected.length : Int)) then
    Except.error
      s!"1st ORDER BY term out of range - should be between 1 and {selected.length}"
  else
    let key := selected.getD (order - 1).toNat ""
    let sorted := List.insertionSort (rowLe key desc) baseRows
    let afterOffset := if offset ≠ 0 then sorted.drop offset.toNat else sorted
    let limited :=
      if limit ≠ 0 then
        if limit < 0 then afterOffset else afterOffset.take limit.toNat
      else afterOffset
    Except.ok (totalCount, filteredCount, limited.map (projectRow selected))

/-- `LIMIT limit OFFSET offset` over an ordered result, stated uniformly:
skip `offset` rows, then keep `limit` rows when `limit` is positive
(a non-positive limit keeps everything). -/
def sqlSlice (limit offset : Int) (l : List α) : List α :=
  let l2 := l.drop offset.toNat
  if 0 < limit then l2.take limit.toNat else l2

/-- The DataTables JSON reply the web layer builds (`get_response`). -/
structure DtResponse where
  recordsTotal : Nat
  recordsFiltered : Nat
  data : List Row
  error : Option String
deriving Repr

/-- `web.global_search`: resolve the table, call `Db.search_table`, and
turn any raised exception into the empty zero-count structured reply. -/
def global_search (ftsMatch : String → Row → Bool) (s : Store)
    (table : Option String) (columns : List String) (query : Option String)
    (order : Int) (direction : String) (limit : Int) (offset : Int) :
    DtResponse :=
  match table with
  | none => ⟨0, 0, [], some "No table specified."⟩
  | some tbl =>
      if table_exists s tbl = false then
        ⟨0, 0, [], some s!"Table <b>{tbl}</b> does not exist."⟩
      else
        match search_table ftsMatch s tbl (some columns) query order direction
            limit offset with
        | .ok (tc, fc, rows) => ⟨tc, fc, rows, none⟩
        | .error _ =>
            ⟨0, 0, [], some "Error attempting to fetch data: Check your web.conf file or your API request for references to tables or columns that don't exist."⟩

/-! ### Concrete fixtures used by witnesses and counterexamples -/

/-- A match predicate that matches nothing (irrelevant to no-query
searches). -/
def pred0 : String → Row → Bool := fun _ _ => false

/-- A valid Module Response with one table `t1` of one row. -/
def okResp : Jv :=
  .obj [("tables", .obj [("t1", .obj [("rows", .arr [.obj [("a", .num 1)]])])])]

/-- A valid Module Response whose table `badtbl` the datastore will
reject. -/
def badResp : Jv :=
  .obj [("tables", .obj [("badtbl", .obj [("rows", .arr [.obj [("b", .num 1)]])])])]

/-- A Module Response whose tables include the reserved name. -/
def impResp : Jv :=
  .obj [("tables", .obj [("imports", .obj [("rows", .arr [.obj [("a", .num 1)]])])])]

def goodFile : FileData :=
  { module := "m", file := "m_1.json", sha1 := "aaa", timestamp := "t0",
    parsed := some okResp }

def badFile : FileData :=
  { module := "m", file := "m_2.json", sha1 := "bbb", timestamp := "t1",
    parsed := some badResp }

def impFile : FileData :=
  { module := "m", file := "m_3.json", sha1 := "ccc", timestamp := "t2",
    parsed := some impResp }

/-- The datastore rejects every row aimed at `badtbl`. -/
def violBad : Viol := fun n _ => n == "badtbl"

/-- A two-row store with a single table `t`. -/
def twoRowStore : Store :=
  [("t", { pk := none, cols := ["a"],
           rows := [[("a", Jv.num 1)], [("a", Jv.num 2)]] })]

/-- A 50-row `devices` table whose `name` column holds 50 down to 1 in
storage order. -/
def devices50 : Store :=
  [("devices", { pk := none, cols := ["name", "ip"],
                 rows := (List.range 50).map
                   (fun i => [("name", Jv.num ((50 - i : Nat) : Int)),
                              ("ip", Jv.str "x")]) })]


/-- The table spec used by the C7 counterexample: `pk` is a number and
`rows` is absent. -/
def cex7 : Jv := .obj [("tables", .obj [("t", .obj [("pk", .num 5)])])]

/-- A match predicate selecting rows whose `ip` column holds `y`. -/
def ipMatch : String → Row → Bool := fun _ r => jvAsStr (rowGet r "ip") == "y"

def svcTable : Table :=
  { pk := none, cols := ["ip"],
    rows := [[("ip", Jv.str "y")], [("ip", Jv.str "x")], [("ip", Jv.str "y")]] }

def svcStore : Store := [("services", svcTable)]

/-- The store produced by one import of `goodFile` into the empty store. -/
def c2Store : Store :=
  ((import_file pred0 [] goodFile false).toOption.getD (.readFailed, [])).2

/-- The staged store of the counterexample batch. -/
def c1Staged : Store :=
  ((importFilesLoop violBad false [] [goodFile, badFile]).toOption.getD ([], [])).2

/-- A one-row table declaring a single-column primary key `k`. -/
def keyedTable : Table :=
  { pk := some "k", cols := ["k", "v"], rows := [[("k", Jv.num 1), ("v", Jv.str "old")]] }

/-- A one-row table declaring no primary key. -/
def keylessTable : Table :=
  { pk := none, cols := ["a"], rows := [[("a", Jv.num 1)]] }

/-! ### Shared lemmas -/

theorem storeGet_storeSet_self (s : Store) (n : String) (t : Table) :
    storeGet (storeSet s n t) n = some t := by
  induction s with
  | nil => simp [storeSet, storeGet, List.lookup]
  | cons hd tl ih =>
      obtain ⟨m, u⟩ := hd
      by_cases h : m = n
      · subst h
        simp [storeSet, storeGet, List.lookup]
      · have hb : (n == m) = false := beq_eq_false_iff_ne.mpr (Ne.symm h)
        simp only [storeSet, if_neg h, storeGet, List.lookup, hb]
        exact ih

theorem storeGet_storeSet_ne (s : Store) (n m : String) (t : Table)
    (h : n ≠ m) : storeGet (storeSet s n t) m = storeGet s m := by
  have hb : (m == n) = false := beq_eq_false_iff_ne.mpr (Ne.symm h)
  induction s with
  | nil => simp [storeSet, storeGet, List.lookup, hb]
  | cons hd tl ih =>
      obtain ⟨k, u⟩ := hd
      by_cases hk : k = n
      · subst hk
        simp [storeSet, storeGet, List.lookup, hb]
      · simp only [storeSet, if_neg hk, storeGet, List.lookup]
        by_cases hm : m = k
        · simp [hm]
        · have hbk : (m == k) = false := beq_eq_false_iff_ne.mpr hm
          simp only [hbk]
          exact ih

/-- `importTablesLoop` never touches a store entry whose name is not
among the processed table names. -/
theorem importTablesLoop_preserves (viol : Viol) (importId : Int) (m : String) :
    ∀ (tables : List (String × Jv)) (s : Store),
      (∀ p ∈ tables, p.1 ≠ m) →
      storeGet (importTablesLoop viol importId s tables).1 m = storeGet s m := by
  intro tables
  induction tables with
  | nil => intro s _; simp [importTablesLoop]
  | cons hd tl ih =>
      intro s hne
      obtain ⟨name, spec⟩ := hd
      have hname : name ≠ m := hne (name, spec) (by simp)
      have htl : ∀ p ∈ tl, p.1 ≠ m := fun p hp => hne p (by simp [hp])
      simp only [importTablesLoop]
      split
      · simp [storeGet_storeSet_ne _ _ _ _ hname]
      · rw [ih _ htl, storeGet_storeSet_ne _ _ _ _ hname]

/-! ### C6 -/

/-- C6: when the write lock on the target store cannot be acquired within
the timeout (the default being 60 time units), `_cache_import` reports
the distinct "busy, retry later" outcome — different from every other
report kind — and leaves the durable store unchanged. -/
theorem c6_lock_timeout_busy_store_unchanged :
    lock_timeout = 60 ∧
    (∀ (viol : Viol) (durable : Store) (files : List FileData) (force : Bool),
      cache_import viol durable files force false = (.busy, durable)) ∧
    (∀ os : List FileOutcome, ImportReport.busy ≠ ImportReport.completed os) ∧
    ImportReport.busy ≠ ImportReport.crashed := by
  refine ⟨rfl, ?_, ?_, by simp⟩
  · intro viol durable files force
    simp [cache_import]
  · intro os
    simp

/-! ### C1 -/

/-- C1 (counterexample): a two-file batch whose second file trips a
constraint violation is not aborted — the first file's table `t1` exists
in the durable store after the attempt with one row, while before the
attempt the store had no tables at all. -/
theorem c1_counterexample :
    (cache_import violBad [] [goodFile, badFile] false true).1 =
      .completed [.imported, .constraintViolation] ∧
    table_exists (cache_import violBad [] [goodFile, badFile] false true).2 "t1" = true ∧
    get_table_count (cache_import violBad [] [goodFile, badFile] false true).2 "t1" = 1 ∧
    table_exists ([] : Store) "t1" = false ∧
    get_table_count ([] : Store) "t1" = 0 :=
  ⟨by decide, by decide, by decide, by decide, by decide⟩

/-- C1 (amended): a constraint violation in one file stops only that
file's remaining work; the batch then continues with the next files, and
when the lock was acquired the staged store — the other files' imports
and the failing file's partial mutations included — is committed over the
durable store, which is therefore not restored to its pre-attempt
state. -/
theorem c1_constraint_violation_batch_continues_and_commits :
    (∀ (viol : Viol) (force : Bool) (s s2 : Store) (f : FileData)
       (rest : List FileData) (o : FileOutcome),
      import_file viol s f force = .ok (o, s2) →
      importFilesLoop viol force s (f :: rest) =
        (importFilesLoop viol force s2 rest).map (fun p => (o :: p.1, p.2))) ∧
    (∀ (viol : Viol) (force : Bool) (s staged : Store) (files : List FileData)
       (os : List FileOutcome),
      importFilesLoop viol force s files = .ok (os, staged) →
      cache_import viol s files force true = (.completed os, staged)) := by
  constructor
  · intro viol force s s2 f rest o h
    simp only [importFilesLoop, h]
    rcases importFilesLoop viol force s2 rest with _ | ⟨os, s3⟩ <;> simp [Except.map]
  · intro viol force s staged files os h
    simp [cache_import, h]

/-- C1 (witness): the amended theorem applied to the concrete two-file
batch of the counterexample. -/
theorem c1_witness :
    cache_import violBad [] [goodFile, badFile] false true =
      (.completed [.imported, .constraintViolation], c1Staged) :=
  c1_constraint_violation_batch_continues_and_commits.2 violBad false [] c1Staged
    [goodFile, badFile] [.imported, .constraintViolation] rfl

/-! ### C3 -/

/-- C3: a table declaring a single-column primary key re-imports a row
whose key value collides with a stored row by replacing that row in place
(row count unchanged, content updated); a table with no primary key
appends every inserted row, growing by exactly the number of rows
imported. -/
theorem c3_upsert_vs_append :
    (∀ (t : Table) (r : Row) (k : String) (i : Nat),
      t.pk = some k →
      t.rows.findIdx? (fun old => sqlValEq (rowGet old k) (rowGet r k)) = some i →
      (upsertRow t r).rows.length = t.rows.length ∧
      (upsertRow t r).rows = t.rows.set i r) ∧
    (∀ (viol : Viol) (tname : String) (t : Table) (rows : List Row),
      t.pk = none → (∀ r ∈ rows, viol tname r = false) →
      (insertRowsAcc viol tname t rows).1.rows = t.rows ++ rows ∧
      (insertRowsAcc viol tname t rows).2 = false) := by
  constructor
  · intro t r k i hpk hidx
    unfold upsertRow
    rw [hpk]
    simp [hidx]
  · intro viol tname t rows
    induction rows generalizing t with
    | nil => intro _ _; simp [insertRowsAcc]
    | cons r rest ih =>
        intro hpk hv
        have hr : viol tname r = false := hv r (by simp)
        have hrest : ∀ x ∈ rest, viol tname x = false := fun x hx => hv x (by simp [hx])
        have hpk2 : (upsertRow t r).pk = none := by
          unfold upsertRow
          rw [hpk]
        have hrows : (upsertRow t r).rows = t.rows ++ [r] := by
          unfold upsertRow
          rw [hpk]
        obtain ⟨h1, h2⟩ := ih (upsertRow t r) hpk2 hrest
        refine ⟨?_, ?_⟩
        · simp [insertRowsAcc, hr, h1, hrows]
        · simp [insertRowsAcc, hr, h2]

/-- C3 (witness): both parts at concrete tables — the keyed table
replaces its row for key value 1 in place, the keyless table grows by the
two inserted rows. -/
theorem c3_witness :
    (upsertRow keyedTable [("k", Jv.num 1), ("v", Jv.str "new")]).rows.length = 1 ∧
    (insertRowsAcc pred0 "t" keylessTable [[("a", Jv.num 2)], [("a", Jv.num 3)]]).1.rows =
      [[("a", Jv.num 1)], [("a", Jv.num 2)], [("a", Jv.num 3)]] := by
  constructor
  · exact (c3_upsert_vs_append.1 keyedTable [("k", Jv.num 1), ("v", Jv.str "new")] "k" 0
      rfl rfl).1
  · have h := (c3_upsert_vs_append.2 pred0 "t" keylessTable
      [[("a", Jv.num 2)], [("a", Jv.num 3)]] rfl (by intro r _; rfl)).1
    simpa using h

theorem exceptBind_ok {ε α β : Type} {e : Except ε α} {f : α → Except ε β} {b : β}
    (h : (e >>= f) = .ok b) : ∃ a, e = .ok a ∧ f a = .ok b := by
  cases e with
  | error er => simp [bind, Except.bind] at h
  | ok a => exact ⟨a, rfl, by simpa [bind, Except.bind] using h⟩

theorem pyAssert_ok {c : Bool} {m : String} {a : Unit}
    (h : pyAssert c m = .ok a) : c = true := by
  cases c with
  | true => rfl
  | false => simp [pyAssert] at h

theorem checkTables_ok_names (tables : Jv) :
    ∀ (names : List String), checkTables tables names = .ok () →
      ∀ n ∈ names, n ≠ "imports" := by
  intro names
  induction names with
  | nil => intro _ n hn; cases hn
  | cons t rest ih =>
      intro h n hn
      rw [checkTables] at h
      obtain ⟨u, hct, h⟩ := exceptBind_ok h
      rcases List.mem_cons.mp hn with rfl | hn2
      · intro hcontra
        subst hcontra
        rw [checkTable] at hct
        obtain ⟨_, h1, _⟩ := exceptBind_ok hct
        simp [pyAssert] at h1
      · exact ih h n hn2

theorem validate_ok_isObj (data : Jv)
    (hv : validate_module_response data = .ok ()) : data.isObj = true := by
  rw [validate_module_response] at hv
  obtain ⟨_, h1, hv⟩ := exceptBind_ok hv
  obtain ⟨_, h2, hv⟩ := exceptBind_ok hv
  exact pyAssert_ok h2

theorem validate_ok_no_imports (data : Jv)
    (hv : validate_module_response data = .ok ()) :
    ∀ p ∈ jvFields (jvGet data "tables"), p.1 ≠ "imports" := by
  intro p hp
  have hobj := validate_ok_isObj data hv
  cases data with
  | obj fs =>
      rw [validate_module_response] at hv
      obtain ⟨_, h1, hv⟩ := exceptBind_ok hv
      obtain ⟨_, h2, hv⟩ := exceptBind_ok hv
      obtain ⟨tb, h3, hv⟩ := exceptBind_ok hv
      obtain ⟨_, h4, hv⟩ := exceptBind_ok hv
      obtain ⟨_, h5, hv⟩ := exceptBind_ok hv
      have htb : tb = rowGet fs "tables" := by
        simpa [pyGet] using h3.symm
      subst htb
      refine checkTables_ok_names _ _ hv p.1 ?_
      simp only [jvGet, jvFields] at hp ⊢
      exact List.mem_map.mpr ⟨p, hp, rfl⟩
  | null => simp [Jv.isObj] at hobj
  | bool b => simp [Jv.isObj] at hobj
  | num n => simp [Jv.isObj] at hobj
  | str s => simp [Jv.isObj] at hobj
  | arr xs => simp [Jv.isObj] at hobj

/-- The stored Import Record row carries the file's content hash. -/
theorem mkImportRow_sha (f : FileData) (id : Int) :
    rowGet (mkImportRow f id) "sha1" = .str f.sha1 := rfl

/-- C2: importing a cache file a second time with `force` false is an
idempotent no-op.  From a store holding no Import Record with the file's
content hash, a first import leaves exactly one such record, and a
second import of the same file is skipped with the "already imported"
outcome
and returns the store unchanged — so the Import Record count for that
content stays 1 and every domain table's row count is identical after
the second call. -/
theorem c2_idempotent (viol : Viol) (s : Store) (f : FileData) (data : Jv)
    (hp : f.parsed = some data)
    (hv : validate_module_response data = .ok ())
    (h0 : importsRowsWithSha s f.sha1 = 0) :
    ∃ o s3, import_file viol s f false = .ok (o, s3) ∧
      importsRowsWithSha s3 f.sha1 = 1 ∧
      import_file viol s3 f false = .ok (.alreadyImported, s3) := by
  have hnames := validate_ok_no_imports data hv
  rw [import_file, hp]
  simp only [hv]
  cases hsi : storeGet s "imports" with
  | some t =>
      simp only [hsi]
      rw [if_neg (by simp [h0])]
      -- the inserted table
      set t2 : Table := { t with rows := t.rows ++ [mkImportRow f ((t.rows.length : Int) + 1)] } with ht2
      have hs2 : storeGet (storeSet s "imports" t2) "imports" = some t2 :=
        storeGet_storeSet_self s "imports" t2
      have hcount0 : (t.rows.filter (fun r => sqlValEq (rowGet r "sha1") (.str f.sha1))).length = 0 := by
        rw [importsRowsWithSha, hsi] at h0
        exact h0
      have hone : (([mkImportRow f ((t.rows.length : Int) + 1)] : List Row).filter
          (fun r => sqlValEq (rowGet r "sha1") (.str f.sha1))).length = 1 := by
        simp [mkImportRow_sha, sqlValEq]
      have hcount2 : importsRowsWithSha (storeSet s "imports" t2) f.sha1 = 1 := by
        rw [importsRowsWithSha, hs2, ht2]
        simp only [List.filter_append, List.length_append, hcount0, hone]
      have hloop := importTablesLoop_preserves viol ((t.rows.length : Int) + 1) "imports"
        (jvFields (jvGet data "tables")) (storeSet s "imports" t2)
        (fun p hp2 => hnames p hp2)
      have hcount3 : importsRowsWithSha
          (importTablesLoop viol ((t.rows.length : Int) + 1) (storeSet s "imports" t2)
            (jvFields (jvGet data "tables"))).1 f.sha1 = 1 := by
        rw [importsRowsWithSha, hloop]
        rw [importsRowsWithSha] at hcount2
        exact hcount2
      refine ⟨_, _, rfl, hcount3, ?_⟩
      -- second import is a skip
      rw [import_file, hp]
      simp only [hv]
      have hsome : ∃ u, storeGet
          (importTablesLoop viol ((t.rows.length : Int) + 1) (storeSet s "imports" t2)
            (jvFields (jvGet data "tables"))).1 "imports" = some u := by
        rw [hloop]
        exact ⟨t2, hs2⟩
      obtain ⟨u, hu⟩ := hsome
      simp only [hu]
      rw [if_pos ⟨by rw [hcount3]; omega, trivial⟩]
  | none =>
      simp only [hsi]
      set empt : Table := { pk := some "id", cols := importsColumns, rows := [] } with hempt
      have hs1 : storeGet (storeSet s "imports" empt) "imports" = some empt :=
        storeGet_storeSet_self s "imports" empt
      simp only [hs1]
      rw [if_neg (by simp [importsRowsWithSha, hs1, hempt])]
      set t2 : Table := { empt with rows := empt.rows ++ [mkImportRow f ((empt.rows.length : Int) + 1)] } with ht2
      have hs2 : storeGet (storeSet (storeSet s "imports" empt) "imports" t2) "imports" = some t2 :=
        storeGet_storeSet_self _ "imports" t2
      have hcount2 : importsRowsWithSha (storeSet (storeSet s "imports" empt) "imports" t2) f.sha1 = 1 := by
        rw [importsRowsWithSha, hs2, ht2]
        simp [mkImportRow_sha, sqlValEq, hempt]
      have hloop := importTablesLoop_preserves viol ((empt.rows.length : Int) + 1) "imports"
        (jvFields (jvGet data "tables")) (storeSet (storeSet s "imports" empt) "imports" t2)
        (fun p hp2 => hnames p hp2)
      have hcount3 : importsRowsWithSha
          (importTablesLoop viol ((empt.rows.length : Int) + 1)
            (storeSet (storeSet s "imports" empt) "imports" t2)
            (jvFields (jvGet data "tables"))).1 f.sha1 = 1 := by
        rw [importsRowsWithSha, hloop]
        rw [importsRowsWithSha] at hcount2
        exact hcount2
      refine ⟨_, _, rfl, hcount3, ?_⟩
      rw [import_file, hp]
      simp only [hv]
      have hsome : ∃ u, storeGet
          (importTablesLoop viol ((empt.rows.length : Int) + 1)
            (storeSet (storeSet s "imports" empt) "imports" t2)
            (jvFields (jvGet data "tables"))).1 "imports" = some u := by
        rw [hloop]
        exact ⟨t2, hs2⟩
      obtain ⟨u, hu⟩ := hsome
      simp only [hu]
      rw [if_pos ⟨by rw [hcount3]; omega, trivial⟩]


/-- C7 (counterexample): the validator does not check `rows` before
`pk` as the claim states.  On a table spec whose `pk` is the number 5 and
whose `rows` key is absent, the failure message names `pk`, not `rows` —
the claimed order would have reported the missing rows first. -/
theorem c7_counterexample :
    validate_module_response cex7 =
      .error (.assertionFailed "data.get('tables').get('t').get('pk') is not a string.") ∧
    "data.get('tables').get('t').get('pk') is not a string." ≠
      "data.get('tables').get('t').get('rows') is empty or does not exist." :=
  ⟨rfl, by decide⟩

/-- C7 (amended): the validator checks, in order: value present and
record-shaped; `tables` present, non-empty, a record; then for every
table — no collision with the reserved import table name or the
shadow-table pattern, then `pk` (if present) is a string, then the spec
is a record and `rows` is present, non-empty, a list of flat records —
failing fast with a message naming the offending table or field.  In
particular the `pk` check precedes every `rows` check (first conjunct,
where `rows` is left arbitrary), and a response containing a table named
`imports` never mutates the store (second conjunct). -/
theorem c7_validator_order :
    (∀ (tname : String) (fs : List (String × Jv)),
      tname ≠ "imports" → isFtsTableName tname = false →
      (rowGet fs "pk").truthy = true → (rowGet fs "pk").isStr = false →
      validate_module_response (.obj [("tables", .obj [(tname, .obj fs)])]) =
        .error (.assertionFailed
          ("data.get('tables').get('" ++ tname ++ "').get('pk') is not a string."))) ∧
    (∀ (viol : Viol) (s : Store) (f : FileData) (force : Bool) (data : Jv),
      f.parsed = some data →
      "imports" ∈ (jvFields (jvGet data "tables")).map Prod.fst →
      import_file viol s f force = .ok (.readFailed, s) ∨
        import_file viol s f force = .error ()) := by
  constructor
  · intro tname fs h1 h2 h3 h4
    have hb1 : (tname != "imports") = true := bne_iff_ne.mpr h1
    have hspec : rowGet [(tname, Jv.obj fs)] tname = Jv.obj fs := by
      simp [rowGet, List.lookup]
    have step1 : validate_module_response (.obj [("tables", .obj [(tname, .obj fs)])]) =
        checkTables (.obj [(tname, .obj fs)]) [tname] := rfl
    rw [step1, checkTables, checkTable]
    simp [hb1, h2, pyAssert, pyGet, hspec, h3, h4, bind, Except.bind]
    rfl
  · intro viol s f force data hp hmem
    cases hv : validate_module_response data with
    | ok u =>
        exfalso
        obtain ⟨p, hpmem, hp1⟩ := List.mem_map.mp hmem
        have := validate_ok_no_imports data (by cases u; exact hv) p hpmem
        exact this hp1
    | error e =>
        cases e with
        | assertionFailed m =>
            left
            rw [import_file, hp]
            simp only [hv]
        | attrError =>
            right
            rw [import_file, hp]
            simp only [hv]


theorem whitespace_not_quote (c : Char) (h : c.isWhitespace = true) : c ≠ '"' := by
  simp [Char.isWhitespace] at h
  rcases h with ((rfl | rfl) | rfl) | rfl <;> decide

theorem whitespace_not_word (c : Char) (h : c.isWhitespace = true) :
    isWordChar c = false := by
  simp [Char.isWhitespace] at h
  rcases h with ((rfl | rfl) | rfl) | rfl <;> decide

theorem findQuotedFuel_no_quote :
    ∀ (fuel : Nat) (s : List Char), (∀ c ∈ s, c ≠ '"') →
      findQuotedFuel fuel s = [] := by
  intro fuel
  induction fuel with
  | zero => intro s _; cases s <;> rfl
  | succ n ih =>
      intro s hs
      cases s with
      | nil => rfl
      | cons c rest =>
          have hc : c ≠ '"' := hs c (by simp)
          rw [findQuotedFuel, if_neg hc]
          exact ih rest (fun x hx => hs x (by simp [hx]))

theorem scanWords_no_word :
    ∀ (fuel : Nat) (p : Option Char) (s : List Char),
      optWord p = false → (∀ c ∈ s, isWordChar c = false) →
      scanWords fuel p s = [] := by
  intro fuel
  induction fuel with
  | zero => intro p s _ _; cases s <;> rfl
  | succ n ih =>
      intro p s hp hs
      cases s with
      | nil => rfl
      | cons c rest =>
          have hc : isWordChar c = false := hs c (by simp)
          have hob : optWord (some c) = false := by simp [optWord, hc]
          rw [scanWords, hp, hob]
          rw [if_neg (by simp)]
          exact ih (some c) rest hob (fun x hx => hs x (by simp [hx]))

/-- C9 (counterexample): normalization does not tokenize on
punctuation.  The query `foo,bar` yields the single keyword `foobar`
(the comma is deleted from the token), not the two keywords `foo` and
`bar` that tokenizing on whitespace/punctuation would produce. -/
theorem c9_counterexample :
    normalize_fts_query "foo,bar" = some "\"foobar\"" ∧
    ("\"foobar\"" : String) ≠ "\"foo\" OR \"bar\"" :=
  ⟨rfl, by decide⟩

/-- C9 (amended): normalization treats each double-quoted substring as
an exact phrase, deletes every occurrence of each phrase's content from
the rest of the query, splits the remainder into word-boundary tokens
from which quote, apostrophe, whitespace and comma characters are
deleted (punctuation does not separate tokens), and joins all phrases
and keywords into one full-text disjunction of the form
`"p1" OR "p2" OR "k1" OR ...`; a whitespace-only (or empty) query
normalizes to no filter at all. -/
theorem c9_query_normalization :
    (∀ q : String, (∀ c ∈ q.data, c.isWhitespace = true) → normalize_fts_query q = none) ∧
    (∀ q : String, normalize_fts_query q = none ∨
       (ftsPhrases q ++ ftsKeywords q ≠ [] ∧
        normalize_fts_query q = some (mkFtsDisjunction (ftsPhrases q ++ ftsKeywords q)))) ∧
    normalize_fts_query "\"net scan\" alpha" = some "\"net scan\" OR \"alpha\"" ∧
    normalize_fts_query "foo,bar" = some "\"foobar\"" := by
  refine ⟨?_, ?_, rfl, rfl⟩
  · intro q hws
    have hq : ftsPhrases q = [] :=
      findQuotedFuel_no_quote _ _ (fun c hc => whitespace_not_quote c (hws c hc))
    have hrem : ftsRemainder q = q := by
      rw [ftsRemainder, hq]
      rfl
    have hkw : ftsKeywords q = [] := by
      rw [ftsKeywords, hrem]
      rw [scanWords_no_word _ none q.data rfl (fun c hc => whitespace_not_word c (hws c hc))]
      rfl
    rw [normalize_fts_query]
    simp [hq, hkw, String.intercalate]
  · intro q
    rw [normalize_fts_query]
    by_cases hj : String.intercalate "\" OR \"" (ftsPhrases q ++ ftsKeywords q) = ""
    · left
      simp [hj]
    · right
      refine ⟨?_, by simp [hj, mkFtsDisjunction]⟩
      intro hparts
      apply hj
      rw [hparts]
      rfl

/-- C9 (witness): the amended theorem at the whitespace-only query. -/
theorem c9_witness : normalize_fts_query "   " = none :=
  c9_query_normalization.1 "   " (by decide)


theorem charListLe_total : ∀ as bs : List Char,
    charListLe as bs = true ∨ charListLe bs as = true := by
  intro as
  induction as with
  | nil => intro bs; left; cases bs <;> rfl
  | cons a as ih =>
      intro bs
      cases bs with
      | nil => right; rfl
      | cons b bs =>
          by_cases hab : a = b
          · subst hab
            rcases ih bs with h | h
            · left; simp [charListLe, h]
            · right; simp [charListLe, h]
          · rcases lt_or_gt_of_ne hab with h | h
            · left
              simp [charListLe, hab, h]
            · right
              have : b < a := h
              simp [charListLe, Ne.symm hab, this]

theorem charListLe_trans : ∀ as bs cs : List Char,
    charListLe as bs = true → charListLe bs cs = true → charListLe as cs = true := by
  intro as
  induction as with
  | nil => intro bs cs _ _; cases cs <;> rfl
  | cons a as ih =>
      intro bs cs h1 h2
      cases bs with
      | nil => simp [charListLe] at h1
      | cons b bs =>
          cases cs with
          | nil => simp [charListLe] at h2
          | cons c cs =>
              by_cases hab : a = b <;> by_cases hbc : b = c
              · subst hab; subst hbc
                simp only [charListLe, if_pos rfl] at h1 h2 ⊢
                exact ih bs cs h1 h2
              · subst hab
                simp only [charListLe, if_pos rfl] at h1
                simp only [charListLe, if_neg hbc] at h2 ⊢
                exact h2
              · subst hbc
                simp only [charListLe, if_neg hab] at h1
                simp only [charListLe, if_neg hab] at *
                exact h1
              · simp only [charListLe, if_neg hab] at h1
                simp only [charListLe, if_neg hbc] at h2
                simp only [decide_eq_true_eq] at h1 h2
                have hac : a < c := lt_trans h1 h2
                have hane : a ≠ c := ne_of_lt hac
                simp [charListLe, hane, hac]

theorem strLe_total (a b : String) : strLe a b = true ∨ strLe b a = true :=
  charListLe_total a.data b.data

theorem strLe_trans {a b c : String} (h1 : strLe a b = true) (h2 : strLe b c = true) :
    strLe a c = true :=
  charListLe_trans a.data b.data c.data h1 h2


theorem jvLe_rank_eq {a b : Jv} (h : jvRank a = jvRank b) :
    jvLe a b = (if jvRank b = 1 then decide (jvAsInt a ≤ jvAsInt b)
                else if jvRank b = 2 then strLe (jvAsStr a) (jvAsStr b) else true) := by
  unfold jvLe
  rw [h, if_neg (lt_irrefl _), if_neg (lt_irrefl _)]

theorem jvLe_total (a b : Jv) : jvLe a b = true ∨ jvLe b a = true := by
  rcases Nat.lt_trichotomy (jvRank a) (jvRank b) with h | h | h
  · left
    unfold jvLe
    rw [if_pos h]
  · rw [jvLe_rank_eq h, jvLe_rank_eq h.symm, ← h]
    by_cases h1 : jvRank a = 1
    · rw [if_pos h1, if_pos h1]
      simp only [decide_eq_true_eq]
      exact Int.le_total _ _
    · rw [if_neg h1, if_neg h1]
      by_cases h2 : jvRank a = 2
      · rw [if_pos h2, if_pos h2]
        exact strLe_total _ _
      · rw [if_neg h2, if_neg h2]
        left
        rfl
  · right
    unfold jvLe
    rw [if_pos h]

theorem jvLe_trans {a b c : Jv} (h1 : jvLe a b = true) (h2 : jvLe b c = true) :
    jvLe a c = true := by
  rcases Nat.lt_trichotomy (jvRank a) (jvRank b) with hab | hab | hab
  · rcases Nat.lt_trichotomy (jvRank b) (jvRank c) with hbc | hbc | hbc
    · unfold jvLe
      rw [if_pos (hab.trans hbc)]
    · unfold jvLe
      rw [if_pos (by omega)]
    · exfalso
      unfold jvLe at h2
      rw [if_neg (by omega), if_pos hbc] at h2
      exact Bool.false_ne_true h2
  · rcases Nat.lt_trichotomy (jvRank b) (jvRank c) with hbc | hbc | hbc
    · unfold jvLe
      rw [if_pos (by omega)]
    · have hac : jvRank a = jvRank c := hab.trans hbc
      rw [jvLe_rank_eq hab] at h1
      rw [jvLe_rank_eq hbc] at h2
      rw [jvLe_rank_eq hac]
      rw [← hbc] at h2 ⊢
      by_cases hr1 : jvRank b = 1
      · rw [if_pos hr1] at h1 h2 ⊢
        simp only [decide_eq_true_eq] at h1 h2 ⊢
        exact le_trans h1 h2
      · rw [if_neg hr1] at h1 h2 ⊢
        by_cases hr2 : jvRank b = 2
        · rw [if_pos hr2] at h1 h2 ⊢
          exact strLe_trans h1 h2
        · rw [if_neg hr2]
    · exfalso
      unfold jvLe at h2
      rw [if_neg (by omega), if_pos hbc] at h2
      exact Bool.false_ne_true h2
  · exfalso
    unfold jvLe at h1
    rw [if_neg (by omega), if_pos hab] at h1
    exact Bool.false_ne_true h1

instance (key : String) (desc : Bool) : IsTotal Row (rowLe key desc) := ⟨by
  intro a b
  unfold rowLe
  cases desc
  · simpa using jvLe_total (rowGet a key) (rowGet b key)
  · simpa using jvLe_total (rowGet b key) (rowGet a key)⟩

instance (key : String) (desc : Bool) : IsTrans Row (rowLe key desc) := ⟨by
  intro a b c h1 h2
  unfold rowLe at h1 h2 ⊢
  cases desc
  · simp only [Bool.false_eq_true, if_false] at h1 h2 ⊢
    exact jvLe_trans h1 h2
  · simp only [if_true] at h1 h2 ⊢
    exact jvLe_trans h2 h1⟩

theorem checkColumns_eq_ok (t : Table) :
    ∀ cs : List String, checkColumns t cs = .ok () ↔ ∀ c ∈ cs, t.cols.contains c = true := by
  intro cs
  induction cs with
  | nil => simp [checkColumns]
  | cons c rest ih =>
      by_cases hc : t.cols.contains c = true
      · rw [checkColumns, if_pos hc]
        constructor
        · intro h x hx
          rcases List.mem_cons.mp hx with rfl | hx2
          · exact hc
          · exact (ih.mp h) x hx2
        · intro h
          exact ih.mpr (fun x hx => h x (by simp [hx]))
      · rw [checkColumns, if_neg hc]
        constructor
        · intro h
          cases h
        · intro h
          exact absurd (h c (by simp)) hc

theorem sqlSlice_eq_branches (l : List Row) (limit offset : Int)
    (hlo : ¬ (limit = 0 ∧ offset ≠ 0)) :
    (if limit ≠ 0 then
       if limit < 0 then (if offset ≠ 0 then l.drop offset.toNat else l)
       else (if offset ≠ 0 then l.drop offset.toNat else l).take limit.toNat
     else (if offset ≠ 0 then l.drop offset.toNat else l)) = sqlSlice limit offset l := by
  simp only [sqlSlice]
  by_cases hoff : offset = 0
  · have hX : (if offset ≠ 0 then l.drop offset.toNat else l) = l := by
      rw [if_neg (by omega)]
    have hD : List.drop offset.toNat l = l := by
      rw [hoff]
      simp
    rw [hX, hD]
    rcases lt_trichotomy limit 0 with hl | hl | hl
    · rw [if_pos (by omega : limit ≠ 0), if_pos hl, if_neg (by omega)]
    · rw [if_neg (by omega), if_neg (by omega)]
    · rw [if_pos (by omega : limit ≠ 0), if_neg (by omega), if_pos hl]
  · have hX : (if offset ≠ 0 then l.drop offset.toNat else l) = l.drop offset.toNat := by
      rw [if_pos hoff]
    have hlim : limit ≠ 0 := fun h => hlo ⟨h, hoff⟩
    rw [hX]
    rcases lt_trichotomy limit 0 with hl | hl | hl
    · rw [if_pos hlim, if_pos hl, if_neg (by omega)]
    · exact absurd hl hlim
    · rw [if_pos hlim, if_neg (by omega), if_pos hl]


theorem search_table_success_noquery (ftsMatch : String → Row → Bool) (s : Store)
    (table : String) (t : Table) (query : Option String) (order : Int)
    (direction : String) (limit offset : Int)
    (ht : storeGet s table = some t)
    (hq : query = none ∨ query = some "")
    (hlo : ¬ (limit = 0 ∧ offset ≠ 0))
    (h1 : 1 ≤ order) (h2 : order ≤ (t.cols.length : Int)) :
    search_table ftsMatch s table none query order direction limit offset =
      .ok (t.rows.length, t.rows.length,
        (sqlSlice limit offset
          (List.insertionSort (rowLe (t.cols.getD (order - 1).toNat "") (sqlDirection direction))
            t.rows)).map (projectRow t.cols)) := by
  simp only [search_table, ht, bind, Except.bind]
  rcases hq with rfl | rfl <;>
  · simp only [Option.map, if_true]
    rw [if_neg hlo, if_neg (not_not_intro ⟨h1, h2⟩)]
    rw [sqlSlice_eq_branches _ _ _ hlo]

theorem search_table_offset_no_limit (ftsMatch : String → Row → Bool) (s : Store)
    (table : String) (t : Table) (query : Option String) (order : Int)
    (direction : String) (offset : Int)
    (ht : storeGet s table = some t) (hoff : offset ≠ 0) :
    search_table ftsMatch s table none query order direction 0 offset =
      .error "near \"OFFSET\": syntax error" := by
  simp only [search_table, ht, bind, Except.bind]
  rw [if_pos ⟨trivial, hoff⟩]


theorem search_table_success_query (ftsMatch : String → Row → Bool) (s : Store)
    (table : String) (t : Table) (cs : List String) (q nq : String) (order : Int)
    (direction : String) (limit offset : Int)
    (ht : storeGet s table = some t)
    (hcs : checkColumns t cs = .ok ())
    (hqe : q ≠ "")
    (hn : normalize_fts_query q = some nq)
    (hlo : ¬ (limit = 0 ∧ offset ≠ 0))
    (h1 : 1 ≤ order) (h2 : order ≤ (cs.length : Int)) :
    search_table ftsMatch s table (some cs) (some q) order direction limit offset =
      .ok (t.rows.length,
        (t.rows.filter (ftsMatch (mkMatchExpr cs nq))).length,
        (sqlSlice limit offset
          (List.insertionSort (rowLe (cs.getD (order - 1).toNat "") (sqlDirection direction))
            (t.rows.filter (ftsMatch (mkMatchExpr cs nq))))).map (projectRow cs)) := by
  simp only [search_table, ht, hcs, bind, Except.bind]
  rw [if_neg hqe]
  simp only [hn, Option.map]
  rw [if_neg hlo, if_neg (not_not_intro ⟨h1, h2⟩)]
  rw [sqlSlice_eq_branches _ _ _ hlo]

theorem rowGet_projectRow (cs : List String) (r : Row) (key : String) (h : key ∈ cs) :
    rowGet (projectRow cs r) key = rowGet r key := by
  induction cs with
  | nil => cases h
  | cons c rest ih =>
      by_cases hk : key = c
      · subst hk
        simp [projectRow, rowGet, List.lookup]
      · have hb : (key == c) = false := beq_eq_false_iff_ne.mpr hk
        have hmem : key ∈ rest := by
          rcases List.mem_cons.mp h with rfl | hm
          · exact absurd rfl hk
          · exact hm
        simp only [projectRow, List.map, rowGet, List.lookup, hb]
        exact ih hmem

theorem sqlSlice_sublist (limit offset : Int) (l : List Row) :
    (sqlSlice limit offset l).Sublist l := by
  unfold sqlSlice
  by_cases h : 0 < limit
  · rw [if_pos h]
    exact (List.take_sublist _ _).trans (List.drop_sublist _ _)
  · rw [if_neg h]
    exact List.drop_sublist _ _

theorem pairwise_projected (key : String) (desc : Bool) (cs : List String)
    (hkey : key ∈ cs) (l : List Row) (hp : l.Pairwise (rowLe key desc)) :
    (l.map (projectRow cs)).Pairwise (rowLe key desc) := by
  rw [List.pairwise_map]
  refine hp.imp ?_
  intro a b hab
  unfold rowLe at hab ⊢
  rw [rowGet_projectRow _ _ _ hkey, rowGet_projectRow _ _ _ hkey]
  exact hab

theorem getD_mem_of_lt {cs : List String} {i : Nat} (h : i < cs.length) :
    cs.getD i "" ∈ cs := by
  rw [List.getD_eq_getElem?_getD, List.getElem?_eq_getElem h]
  simp only [Option.getD_some]
  exact List.getElem_mem h

theorem order_key_mem (cs : List String) (order : Int)
    (h1 : 1 ≤ order) (h2 : order ≤ (cs.length : Int)) :
    cs.getD (order - 1).toNat "" ∈ cs :=
  getD_mem_of_lt (by omega)


/-- C4: a search with a non-empty query (that normalizes to a match
expression) on an existing table with existing requested columns returns
`totalCount` equal to the unfiltered row count, `filteredCount` equal to
the number of rows matching the full-text predicate, and exactly the
matching rows restricted to the requested columns, ordered by the
1-based order column index and direction, and sliced by limit and
offset. -/
theorem c4_search_with_query (ftsMatch : String → Row → Bool) (s : Store)
    (table : String) (t : Table) (cs : List String) (q nq : String) (order : Int)
    (direction : String) (limit offset : Int)
    (ht : storeGet s table = some t)
    (hcs : ∀ c ∈ cs, t.cols.contains c = true)
    (hqe : q ≠ "") (hn : normalize_fts_query q = some nq)
    (hlo : ¬ (limit = 0 ∧ offset ≠ 0))
    (h1 : 1 ≤ order) (h2 : order ≤ (cs.length : Int)) :
    let key := cs.getD (order - 1).toNat ""
    let matched := t.rows.filter (ftsMatch (mkMatchExpr cs nq))
    let resultRows :=
      (sqlSlice limit offset
        (List.insertionSort (rowLe key (sqlDirection direction)) matched)).map (projectRow cs)
    search_table ftsMatch s table (some cs) (some q) order direction limit offset =
      .ok (t.rows.length, matched.length, resultRows) ∧
    resultRows.Pairwise (rowLe key (sqlDirection direction)) ∧
    (∀ r ∈ resultRows, ∃ x ∈ t.rows,
      ftsMatch (mkMatchExpr cs nq) x = true ∧ r = projectRow cs x) := by
  intro key matched resultRows
  have hkey : key ∈ cs := order_key_mem cs order h1 h2
  refine ⟨?_, ?_, ?_⟩
  · exact search_table_success_query ftsMatch s table t cs q nq order direction limit offset
      ht ((checkColumns_eq_ok t cs).mpr hcs) hqe hn hlo h1 h2
  · exact pairwise_projected key (sqlDirection direction) cs hkey _
      ((List.sorted_insertionSort _ _).sublist (sqlSlice_sublist _ _ _))
  · intro r hr
    obtain ⟨y, hy, rfl⟩ := List.mem_map.mp hr
    have hy2 : y ∈ List.insertionSort (rowLe key (sqlDirection direction)) matched :=
      (sqlSlice_sublist _ _ _).mem hy
    have hy3 : y ∈ matched := (List.perm_insertionSort _ _).mem_iff.mp hy2
    obtain ⟨hmem, hpred⟩ := List.mem_filter.mp hy3
    exact ⟨y, hmem, hpred, rfl⟩

/-- C4 (witness): the theorem at a concrete three-row `services` table
with a predicate matching two rows. -/
theorem c4_witness :
    search_table ipMatch svcStore "services" (some ["ip"]) (some "q") 1 "ASC" 0 0 =
      .ok (3, 2, [[("ip", Jv.str "y")], [("ip", Jv.str "y")]]) := by
  have h := (c4_search_with_query ipMatch svcStore "services" svcTable ["ip"] "q" "\"q\""
    1 "ASC" 0 0 rfl (by decide) (by decide) rfl (by simp) (by decide) (by decide)).1
  exact h.trans (by rfl)



/-- C5: a search with no query (absent or empty) evaluates no
full-text predicate — the result does not depend on the match predicate
at all — and returns `filteredCount` equal to `totalCount` with ordering
and paging applied directly over all rows; on a 50-row `devices` table
with order column 1, direction ASC, limit 10, offset 0 it returns
`totalCount = 50`, `filteredCount = 50` and exactly 10 rows ordered by
column 1 ascending. -/
theorem c5_search_without_query :
    (∀ (ftsMatch ftsMatch2 : String → Row → Bool) (s : Store) (table : String) (t : Table)
       (query : Option String) (order : Int) (direction : String) (limit offset : Int),
      storeGet s table = some t →
      (query = none ∨ query = some "") →
      ¬ (limit = 0 ∧ offset ≠ 0) →
      1 ≤ order → order ≤ (t.cols.length : Int) →
      search_table ftsMatch s table none query order direction limit offset =
        .ok (t.rows.length, t.rows.length,
          (sqlSlice limit offset
            (List.insertionSort (rowLe (t.cols.getD (order - 1).toNat "") (sqlDirection direction))
              t.rows)).map (projectRow t.cols)) ∧
      search_table ftsMatch s table none query order direction limit offset =
        search_table ftsMatch2 s table none query order direction limit offset) ∧
    search_table pred0 devices50 "devices" none none 1 "ASC" 10 0 =
      .ok (50, 50, (List.range 10).map
        (fun i => [("name", Jv.num ((i : Int) + 1)), ("ip", Jv.str "x")])) ∧
    ((List.range 10).map
        (fun i => [("name", Jv.num ((i : Int) + 1)), ("ip", Jv.str "x")])).length = 10 ∧
    ((List.range 10).map
        (fun i => [("name", Jv.num ((i : Int) + 1)), ("ip", Jv.str "x")])).Pairwise
      (rowLe "name" false) := by
  refine ⟨?_, by rfl, by decide, by decide⟩
  intro ftsMatch ftsMatch2 s table t query order direction limit offset ht hq hlo h1 h2
  have hA := search_table_success_noquery ftsMatch s table t query order direction limit offset
    ht hq hlo h1 h2
  have hB := search_table_success_noquery ftsMatch2 s table t query order direction limit offset
    ht hq hlo h1 h2
  exact ⟨hA, hA.trans hB.symm⟩

/-- C10 (counterexample): with limit 0 and a non-zero offset the row
query emits `OFFSET` without `LIMIT`, an SQL syntax error — no rows are
returned at all, although the same search with offset 0 returns both
rows of the table. -/
theorem c10_counterexample :
    search_table pred0 twoRowStore "t" none none 1 "ASC" 0 1 =
      .error "near \"OFFSET\": syntax error" ∧
    search_table pred0 twoRowStore "t" none none 1 "ASC" 0 0 =
      .ok (2, 2, [[("a", Jv.num 1)], [("a", Jv.num 2)]]) := ⟨rfl, rfl⟩

/-- C10 (amended): limit 0 applies no LIMIT clause and offset 0
applies no OFFSET clause — with both zero, all rows passing the filter
are returned untruncated, and with a positive limit and offset 0 only
the limit is applied — but limit 0 combined with a non-zero offset
produces `OFFSET` without `LIMIT`, an SQL syntax error reported as an
error rather than returning the remaining rows. -/
theorem c10_limit_offset_zero_semantics (ftsMatch : String → Row → Bool) (s : Store)
    (table : String) (t : Table) (order : Int) (direction : String)
    (ht : storeGet s table = some t)
    (h1 : 1 ≤ order) (h2 : order ≤ (t.cols.length : Int)) :
    (search_table ftsMatch s table none none order direction 0 0 =
      .ok (t.rows.length, t.rows.length,
        (List.insertionSort (rowLe (t.cols.getD (order - 1).toNat "") (sqlDirection direction))
          t.rows).map (projectRow t.cols))) ∧
    (∀ offset : Int, offset ≠ 0 →
      search_table ftsMatch s table none none order direction 0 offset =
        .error "near \"OFFSET\": syntax error") ∧
    (∀ limit : Int, 0 < limit →
      search_table ftsMatch s table none none order direction limit 0 =
        .ok (t.rows.length, t.rows.length,
          ((List.insertionSort (rowLe (t.cols.getD (order - 1).toNat "") (sqlDirection direction))
            t.rows).take limit.toNat).map (projectRow t.cols))) := by
  refine ⟨?_, ?_, ?_⟩
  · have h := search_table_success_noquery ftsMatch s table t none order direction 0 0
      ht (Or.inl rfl) (by simp) h1 h2
    rwa [show sqlSlice 0 0 (List.insertionSort (rowLe (t.cols.getD (order - 1).toNat "")
      (sqlDirection direction)) t.rows) = List.insertionSort (rowLe (t.cols.getD (order - 1).toNat "")
      (sqlDirection direction)) t.rows from by simp [sqlSlice]] at h
  · intro offset hoff
    exact search_table_offset_no_limit ftsMatch s table t none order direction offset ht hoff
  · intro limit hpos
    have h := search_table_success_noquery ftsMatch s table t none order direction limit 0
      ht (Or.inl rfl) (by simp) h1 h2
    rwa [show sqlSlice limit 0 (List.insertionSort (rowLe (t.cols.getD (order - 1).toNat "")
      (sqlDirection direction)) t.rows) = (List.insertionSort (rowLe (t.cols.getD (order - 1).toNat "")
      (sqlDirection direction)) t.rows).take limit.toNat from by simp [sqlSlice, hpos]] at h

theorem search_table_isError (ftsMatch : String → Row → Bool) (s : Store)
    (tbl : String) (t : Table) (cs : List String) (query : Option String)
    (order : Int) (direction : String) (limit offset : Int)
    (ht : storeGet s tbl = some t)
    (h : (∃ c ∈ cs, t.cols.contains c = false) ∨
         ¬ (1 ≤ order ∧ order ≤ (cs.length : Int))) :
    ∃ e, search_table ftsMatch s tbl (some cs) query order direction limit offset =
      .error e := by
  rcases hcc : checkColumns t cs with e | u
  · refine ⟨e, ?_⟩
    simp only [search_table, ht, hcc, bind, Except.bind]
  · cases u
    rcases h with ⟨c, hc, hcon⟩ | hord
    · have hcontra := (checkColumns_eq_ok t cs).mp hcc c hc
      rw [hcontra] at hcon
      cases hcon
    · by_cases hlo : limit = 0 ∧ offset ≠ 0
      · refine ⟨"near \"OFFSET\": syntax error", ?_⟩
        simp only [search_table, ht, hcc, bind, Except.bind]
        rw [if_pos hlo]
      · refine ⟨"1st ORDER BY term out of range - should be between 1 and " ++
          toString cs.length ++ "", ?_⟩
        simp only [search_table, ht, hcc, bind, Except.bind]
        rw [if_neg hlo, if_pos hord]
        rfl

/-- C8: a search request whose table or a requested column does not
exist, or whose order index is out of range, degrades to the structured
zero-count reply — `recordsTotal = 0`, `recordsFiltered = 0`, no rows —
together with an error string, never a crash. -/
theorem c8_structured_error (ftsMatch : String → Row → Bool) (s : Store)
    (tbl : String) (columns : List String) (query : Option String)
    (order : Int) (direction : String) (limit offset : Int)
    (h : table_exists s tbl = false ∨
         (∃ c ∈ columns, column_exists s tbl c = false) ∨
         ¬ (1 ≤ order ∧ order ≤ (columns.length : Int))) :
    (global_search ftsMatch s (some tbl) columns query order direction limit offset).recordsTotal = 0 ∧
    (global_search ftsMatch s (some tbl) columns query order direction limit offset).recordsFiltered = 0 ∧
    (global_search ftsMatch s (some tbl) columns query order direction limit offset).data = [] ∧
    (global_search ftsMatch s (some tbl) columns query order direction limit offset).error.isSome = true := by
  by_cases hex : table_exists s tbl = false
  · simp [global_search, hex]
  · have hex2 : table_exists s tbl = true := by
      cases hb : table_exists s tbl
      · exact absurd hb hex
      · rfl
    obtain ⟨t, ht⟩ : ∃ t, storeGet s tbl = some t := by
      unfold table_exists at hex2
      cases hsg : storeGet s tbl with
      | none => rw [hsg] at hex2; simp at hex2
      | some t => exact ⟨t, rfl⟩
    have herr : ∃ e, search_table ftsMatch s tbl (some columns) query order direction
        limit offset = .error e := by
      apply search_table_isError ftsMatch s tbl t columns query order direction limit offset ht
      rcases h with hcase | hcase | hcase
      · exact absurd hcase hex
      · left
        obtain ⟨c, hc1, hc2⟩ := hcase
        refine ⟨c, hc1, ?_⟩
        unfold column_exists at hc2
        rw [ht] at hc2
        exact hc2
      · right
        exact hcase
    obtain ⟨e, he⟩ := herr
    simp [global_search, hex, he]


/-- C2 (witness): the idempotence theorem at a concrete file imported
into the empty store. -/
theorem c2_witness :
    importsRowsWithSha c2Store goodFile.sha1 = 1 ∧
    import_file pred0 c2Store goodFile false = .ok (.alreadyImported, c2Store) := by
  obtain ⟨o, s3, h1, h2, h3⟩ := c2_idempotent pred0 [] goodFile okResp rfl rfl rfl
  have hs : c2Store = s3 := by
    unfold c2Store
    rw [h1]
    rfl
  rw [hs]
  exact ⟨h2, h3⟩

/-- C5 (witness): the no-query theorem at a concrete two-row table. -/
theorem c5_witness :
    search_table pred0 twoRowStore "t" none none 1 "ASC" 0 0 =
      .ok (2, 2, [[("a", Jv.num 1)], [("a", Jv.num 2)]]) := by
  have h := (c5_search_without_query.1 pred0 ipMatch twoRowStore "t"
    { pk := none, cols := ["a"], rows := [[("a", Jv.num 1)], [("a", Jv.num 2)]] }
    none 1 "ASC" 0 0 rfl (Or.inl rfl) (by simp) (by decide) (by decide)).1
  exact h.trans (by rfl)

/-- C7 (witness): the amended theorem at a concrete table spec with a
numeric `pk` and at a response carrying a table named `imports`. -/
theorem c7_witness :
    validate_module_response (.obj [("tables", .obj [("t2", .obj [("pk", .num 7)])])]) =
      .error (.assertionFailed
        ("data.get('tables').get('" ++ "t2" ++ "').get('pk') is not a string.")) ∧
    (import_file pred0 [] impFile false = .ok (.readFailed, []) ∨
      import_file pred0 [] impFile false = .error ()) :=
  ⟨c7_validator_order.1 "t2" [("pk", .num 7)] (by decide) (by decide) (by decide) (by decide),
   c7_validator_order.2 pred0 [] impFile false impResp rfl (by decide)⟩

/-- C8 (witness): the structured-error theorem at a missing table. -/
theorem c8_witness :
    (global_search pred0 twoRowStore (some "missing") ["a"] none 1 "ASC" 10 0).recordsTotal = 0 ∧
    (global_search pred0 twoRowStore (some "missing") ["a"] none 1 "ASC" 10 0).recordsFiltered = 0 ∧
    (global_search pred0 twoRowStore (some "missing") ["a"] none 1 "ASC" 10 0).data = [] ∧
    (global_search pred0 twoRowStore (some "missing") ["a"] none 1 "ASC" 10 0).error.isSome = true :=
  c8_structured_error pred0 twoRowStore "missing" ["a"] none 1 "ASC" 10 0 (Or.inl rfl)

/-- C10 (witness): the amended theorem's syntax-error conjunct at a
concrete two-row table and offset 2. -/
theorem c10_witness :
    search_table pred0 twoRowStore "t" none none 1 "ASC" 0 2 =
      .error "near \"OFFSET\": syntax error" :=
  (c10_limit_offset_zero_semantics pred0 twoRowStore "t"
    { pk := none, cols := ["a"], rows := [[("a", Jv.num 1)], [("a", Jv.num 2)]] }
    1 "ASC" rfl (by decide) (by decide)).2.1 2 (by decide)

end Watchtower
